import Mathlib

set_option maxHeartbeats 1000000

/-!  Shallow embedding of the KV-cache admission policy
(`db/kv_cache_policy.cc` together with its public header).

The two C++ singletons (`KVCPTable` and `KVCP_ThresholdTable`) plus the
hybrid flag are combined into one explicit state record.  The sharded
hash maps are modelled as one total map `key → Option Entry`: the shard
index is a deterministic function of the key, so the union of the shards
is a single finite map and sequential behaviour is unchanged.  The
`uint32_t` counters are modelled as `Nat` reduced modulo `2 ^ 32` at
every increment, exactly where C++ unsigned arithmetic wraps. -/

/-- The caller-supplied key context (`KVCPKeyCtx`): opaque db pointer,
column-family id, user key bytes. -/
structure KVCPKeyCtx where
  db_ptr : Nat
  cf_id : Nat
  user_key : List Nat
  deriving DecidableEq

/-- The owned map key (`HKey`); `MakeKey` copies the context fields. -/
structure HKey where
  db_ptr : Nat
  cf_id : Nat
  user_key : List Nat
  deriving DecidableEq

/-- A stats entry: `uint32_t cached_key_count, invalidation_count`,
both zero-initialised. -/
structure Entry where
  cached_key_count : Nat
  invalidation_count : Nat
  deriving DecidableEq

/-- Threshold-table key (`KVCP_TKey`): (db pointer, column-family id). -/
structure KVCP_TKey where
  db_ptr : Nat
  cf_id : Nat
  deriving DecidableEq

/-- `uint32_t` wraparound: reduction modulo `2 ^ 32`. -/
def wrap32 (n : Nat) : Nat := n % 4294967296

/-- `KVCPTable::MakeKey`: copy the context fields into an owned key. -/
def MakeKey (k : KVCPKeyCtx) : HKey := ⟨k.db_ptr, k.cf_id, k.user_key⟩

/-- Point update of a functional finite map (`map[k] = v` / `insert`). -/
def mapUpd {α β : Type} [DecidableEq α] (m : α → Option β) (a : α) (b : β) :
    α → Option β :=
  fun x => if x = a then some b else m x

/-- Point removal from a functional finite map (`map.erase(it)`). -/
def mapDel {α β : Type} [DecidableEq α] (m : α → Option β) (a : α) :
    α → Option β :=
  fun x => if x = a then none else m x

/-- The whole policy state: the stats table, the threshold table and the
hybrid flag. -/
structure KVCPState where
  stats : HKey → Option Entry
  thresholds : KVCP_TKey → Option Nat
  hybrid : Bool

/-- Start-of-process state: both tables empty, hybrid flag off. -/
def initState : KVCPState := ⟨fun _ => none, fun _ => none, false⟩

/-- `KVCPTable::OnMiss`: if an entry exists and `cached_key_count > 0`,
increment `invalidation_count` (uint32 wraparound); otherwise no-op. -/
def OnMiss (s : KVCPState) (k : KVCPKeyCtx) : KVCPState :=
  match s.stats (MakeKey k) with
  | none => s
  | some e =>
    if 0 < e.cached_key_count then
      ⟨mapUpd s.stats (MakeKey k)
          ⟨e.cached_key_count, wrap32 (e.invalidation_count + 1)⟩,
        s.thresholds, s.hybrid⟩
    else s

/-- `KVCPTable::ShouldSkipInsert`: false if no entry exists, otherwise
`invalidation_count >= threshold`.  A pure read (no state result). -/
def ShouldSkipInsert (s : KVCPState) (k : KVCPKeyCtx) (threshold : Nat) :
    Bool :=
  match s.stats (MakeKey k) with
  | none => false
  | some e => decide (threshold ≤ e.invalidation_count)

/-- `KVCPTable::OnInsert`: `map[key]` default-constructs `{0, 0}` when
absent, then `++cached_key_count` (uint32 wraparound). -/
def OnInsert (s : KVCPState) (k : KVCPKeyCtx) : KVCPState :=
  ⟨mapUpd s.stats (MakeKey k)
      ⟨wrap32 (((s.stats (MakeKey k)).getD ⟨0, 0⟩).cached_key_count + 1),
        ((s.stats (MakeKey k)).getD ⟨0, 0⟩).invalidation_count⟩,
    s.thresholds, s.hybrid⟩

/-- `KVCPTable::OnEvict`: no-op when absent; decrement `cached_key_count`
when it is `> 1`; otherwise erase the entry. -/
def OnEvict (s : KVCPState) (k : KVCPKeyCtx) : KVCPState :=
  match s.stats (MakeKey k) with
  | none => s
  | some e =>
    if 1 < e.cached_key_count then
      ⟨mapUpd s.stats (MakeKey k)
          ⟨e.cached_key_count - 1, e.invalidation_count⟩,
        s.thresholds, s.hybrid⟩
    else
      ⟨mapDel s.stats (MakeKey k), s.thresholds, s.hybrid⟩

/-- `KVCPTable::GetInvalidation`: pure read, 0 when absent. -/
def GetInvalidation (s : KVCPState) (k : KVCPKeyCtx) : Nat :=
  match s.stats (MakeKey k) with
  | none => 0
  | some e => e.invalidation_count

/-- `KVCPTable::ClearAll`: clear every shard's map; the threshold table
and the hybrid flag are untouched. -/
def ClearAll (s : KVCPState) : KVCPState :=
  ⟨fun _ => none, s.thresholds, s.hybrid⟩

/-- `kKVCPDefaultThreshold = 3`. -/
def kKVCPDefaultThreshold : Nat := 3

/-- `KVCP_ThresholdTable::Set`: upsert the stored value (both branches
of the C++ code end with the slot holding `v`). -/
def ThresholdSet (s : KVCPState) (db_ptr cf_id v : Nat) : KVCPState :=
  ⟨s.stats, mapUpd s.thresholds ⟨db_ptr, cf_id⟩ v, s.hybrid⟩

/-- `KVCP_ThresholdTable::Get`: stored value, or the default when the
slot was never created. -/
def ThresholdGet (s : KVCPState) (db_ptr cf_id : Nat) : Nat :=
  match s.thresholds ⟨db_ptr, cf_id⟩ with
  | none => kKVCPDefaultThreshold
  | some v => v

/-- Facade hook `KVCP_OnRowCacheMiss`, delegating to the table. -/
def KVCP_OnRowCacheMiss : KVCPState → KVCPKeyCtx → KVCPState := OnMiss

/-- The header's name for the miss hook (`KVCP_OnRowCacheInvalidation`,
declared to be called right after a row-cache lookup miss); the
translation unit implements it as the miss hook on the table. -/
def KVCP_OnRowCacheInvalidation : KVCPState → KVCPKeyCtx → KVCPState :=
  OnMiss

/-- Facade `KVCP_ShouldSkipRowCacheInsert`. -/
def KVCP_ShouldSkipRowCacheInsert : KVCPState → KVCPKeyCtx → Nat → Bool :=
  ShouldSkipInsert

/-- Facade `KVCP_OnRowCacheInsert`. -/
def KVCP_OnRowCacheInsert : KVCPState → KVCPKeyCtx → KVCPState := OnInsert

/-- Facade `KVCP_OnRowCacheEvict`. -/
def KVCP_OnRowCacheEvict : KVCPState → KVCPKeyCtx → KVCPState := OnEvict

/-- Facade `KVCP_GetInvalidationCount`. -/
def KVCP_GetInvalidationCount : KVCPState → KVCPKeyCtx → Nat :=
  GetInvalidation

/-- Facade `KVCP_ClearAll`. -/
def KVCP_ClearAll : KVCPState → KVCPState := ClearAll

/-- Facade `KVCP_SetThreshold`. -/
def KVCP_SetThreshold : KVCPState → Nat → Nat → Nat → KVCPState :=
  ThresholdSet

/-- Facade `KVCP_GetThreshold`. -/
def KVCP_GetThreshold : KVCPState → Nat → Nat → Nat := ThresholdGet

/-- Modelled from the spec: `KVCP_GetCachedKeyCount` is declared in the
public header but its definition is not among the sources; the spec says
it is a pure read of `cached_count`, returning 0 if absent. -/
def KVCP_GetCachedKeyCount (s : KVCPState) (k : KVCPKeyCtx) : Nat :=
  match s.stats (MakeKey k) with
  | none => 0
  | some e => e.cached_key_count

/-- Modelled from the spec: `KVCP_SetHybridEnabled` is declared in the
public header but its definition is not among the sources; the spec says
it is a plain atomic write to a process-wide boolean, default false. -/
def KVCP_SetHybridEnabled (s : KVCPState) (b : Bool) : KVCPState :=
  ⟨s.stats, s.thresholds, b⟩

/-- Modelled from the spec: `KVCP_IsHybridEnabled` is declared in the
public header but its definition is not among the sources; the spec says
it is a plain atomic read of the hybrid flag. -/
def KVCP_IsHybridEnabled (s : KVCPState) : Bool := s.hybrid

/-- One invocation of any operation of the policy, for trace-based
reachability.  Read operations do not change the state. -/
inductive KVCPOp where
  | miss (k : KVCPKeyCtx)
  | skipRead (k : KVCPKeyCtx) (threshold : Nat)
  | insert (k : KVCPKeyCtx)
  | evict (k : KVCPKeyCtx)
  | invalRead (k : KVCPKeyCtx)
  | cachedRead (k : KVCPKeyCtx)
  | clear
  | setThreshold (db_ptr cf_id v : Nat)
  | thresholdRead (db_ptr cf_id : Nat)
  | setHybrid (b : Bool)
  | hybridRead
  deriving DecidableEq

/-- Apply one operation to the state. -/
def applyOp (s : KVCPState) : KVCPOp → KVCPState
  | .miss k => OnMiss s k
  | .skipRead _ _ => s
  | .insert k => OnInsert s k
  | .evict k => OnEvict s k
  | .invalRead _ => s
  | .cachedRead _ => s
  | .clear => ClearAll s
  | .setThreshold d c v => ThresholdSet s d c v
  | .thresholdRead _ _ => s
  | .setHybrid b => KVCP_SetHybridEnabled s b
  | .hybridRead => s

/-- Apply a whole operation sequence, oldest first. -/
def applyOps (s : KVCPState) (l : List KVCPOp) : KVCPState :=
  l.foldl applyOp s

/-- A state is reachable when some operation sequence produces it from
the start-of-process state. -/
def Reachable (s : KVCPState) : Prop :=
  ∃ l : List KVCPOp, applyOps initState l = s

/-- The value of the most recent `SetThreshold` for `(d, c)` in a trace,
if any: the spec-side description of what `GetThreshold` reads. -/
def lastSetStep (d c : Nat) (acc : Option Nat) (op : KVCPOp) : Option Nat :=
  match op with
  | .setThreshold d2 c2 v => if d2 = d ∧ c2 = c then some v else acc
  | _ => acc

/-- Most recent threshold value set for `(d, c)` along a trace. -/
def LastThresholdSet (d c : Nat) (l : List KVCPOp) : Option Nat :=
  l.foldl (lastSetStep d c) none

/-- Recognise a `setHybrid` operation. -/
def KVCPOp.isSetHybrid : KVCPOp → Bool
  | .setHybrid _ => true
  | _ => false

/-- A fixed concrete key context used by concrete evaluations. -/
def keyA : KVCPKeyCtx := ⟨0, 0, []⟩

/-- A second concrete key context, distinct from `keyA`. -/
def keyB : KVCPKeyCtx := ⟨1, 0, []⟩

/-- Every entry of the stats table has `1 ≤ cached_key_count ≤ m`. -/
def EntryBound (m : Nat) (s : KVCPState) : Prop :=
  ∀ (h : HKey) (e : Entry), s.stats h = some e →
    1 ≤ e.cached_key_count ∧ e.cached_key_count ≤ m

/-- `2 ^ 32` consecutive inserts of `keyA`: the resulting entry's
`uint32_t` cached count has wrapped back to 0 while it still exists. -/
def wrapTraceInsert : List KVCPOp :=
  List.replicate 4294967296 (KVCPOp.insert keyA)

/-- `2 ^ 32 - 1` consecutive inserts of `keyA`: the resulting entry's
cached count sits at the largest `uint32_t` value. -/
def almostWrapTrace : List KVCPOp :=
  List.replicate 4294967295 (KVCPOp.insert keyA)

/-- One insert of `keyA` followed by `2 ^ 32` misses of `keyA`: the
entry's `uint32_t` invalidation count has wrapped back to 0. -/
def wrapTraceMiss : List KVCPOp :=
  KVCPOp.insert keyA :: List.replicate 4294967296 (KVCPOp.miss keyA)

lemma mapUpd_self {α β : Type} [DecidableEq α] (m : α → Option β) (a : α)
    (b : β) : mapUpd m a b a = some b := by
  simp [mapUpd]

lemma mapUpd_ne {α β : Type} [DecidableEq α] (m : α → Option β) (a x : α)
    (b : β) (hx : x ≠ a) : mapUpd m a b x = m x := by
  simp [mapUpd, hx]

lemma mapDel_self {α β : Type} [DecidableEq α] (m : α → Option β) (a : α) :
    mapDel m a a = none := by
  simp [mapDel]

lemma mapDel_ne {α β : Type} [DecidableEq α] (m : α → Option β) (a x : α)
    (hx : x ≠ a) : mapDel m a x = m x := by
  simp [mapDel, hx]

lemma OnMiss_thresholds (s : KVCPState) (k : KVCPKeyCtx) :
    (OnMiss s k).thresholds = s.thresholds := by
  unfold OnMiss
  cases s.stats (MakeKey k) with
  | none => rfl
  | some e => by_cases h : 0 < e.cached_key_count <;> simp [h]

lemma OnMiss_hybrid (s : KVCPState) (k : KVCPKeyCtx) :
    (OnMiss s k).hybrid = s.hybrid := by
  unfold OnMiss
  cases s.stats (MakeKey k) with
  | none => rfl
  | some e => by_cases h : 0 < e.cached_key_count <;> simp [h]

lemma OnEvict_thresholds (s : KVCPState) (k : KVCPKeyCtx) :
    (OnEvict s k).thresholds = s.thresholds := by
  unfold OnEvict
  cases s.stats (MakeKey k) with
  | none => rfl
  | some e => by_cases h : 1 < e.cached_key_count <;> simp [h]

lemma OnEvict_hybrid (s : KVCPState) (k : KVCPKeyCtx) :
    (OnEvict s k).hybrid = s.hybrid := by
  unfold OnEvict
  cases s.stats (MakeKey k) with
  | none => rfl
  | some e => by_cases h : 1 < e.cached_key_count <;> simp [h]

lemma thresholds_applyOp (s : KVCPState) (op : KVCPOp) (d c : Nat) :
    (applyOp s op).thresholds ⟨d, c⟩ =
      lastSetStep d c (s.thresholds ⟨d, c⟩) op := by
  cases op with
  | miss k => simp [applyOp, lastSetStep, OnMiss_thresholds]
  | insert k => simp [applyOp, lastSetStep, OnInsert]
  | evict k => simp [applyOp, lastSetStep, OnEvict_thresholds]
  | clear => simp [applyOp, lastSetStep, ClearAll]
  | setHybrid b => simp [applyOp, lastSetStep, KVCP_SetHybridEnabled]
  | setThreshold d2 c2 v =>
    simp only [applyOp, ThresholdSet, lastSetStep, mapUpd]
    by_cases hdc : d2 = d ∧ c2 = c
    · obtain ⟨h1, h2⟩ := hdc
      subst h1; subst h2; simp
    · have hne : (⟨d, c⟩ : KVCP_TKey) ≠ ⟨d2, c2⟩ := by
        intro he
        injection he with ha hb
        exact hdc ⟨ha.symm, hb.symm⟩
      simp [hne, hdc]
  | skipRead k t => simp [applyOp, lastSetStep]
  | invalRead k => simp [applyOp, lastSetStep]
  | cachedRead k => simp [applyOp, lastSetStep]
  | thresholdRead d2 c2 => simp [applyOp, lastSetStep]
  | hybridRead => simp [applyOp, lastSetStep]

lemma applyOps_thresholds (l : List KVCPOp) :
    ∀ (s : KVCPState) (d c : Nat),
      (applyOps s l).thresholds ⟨d, c⟩ =
        l.foldl (lastSetStep d c) (s.thresholds ⟨d, c⟩) := by
  induction l with
  | nil => intro s d c; rfl
  | cons op l2 ih =>
    intro s d c
    show (applyOps (applyOp s op) l2).thresholds _ = _
    rw [ih, List.foldl_cons, thresholds_applyOp]

lemma ThresholdGet_eq (s : KVCPState) (d c : Nat) :
    ThresholdGet s d c = (s.thresholds ⟨d, c⟩).getD kKVCPDefaultThreshold := by
  unfold ThresholdGet
  cases s.thresholds ⟨d, c⟩ <;> rfl

/-- Claim C1: `ShouldSkipRowCacheInsert(key, t)` is true exactly when an
entry exists for the key and its invalidation count is at least `t`;
with no entry it is false for every `t`, including `t = 0`, and with an
entry it is true for `t = 0` even with zero invalidations.  It is a pure
read: in this embedding it returns only a Bool and no state, and as a
trace operation it leaves the state unchanged. -/
theorem C1_shouldSkipInsert_iff :
    (∀ (s : KVCPState) (k : KVCPKeyCtx) (t : Nat),
        KVCP_ShouldSkipRowCacheInsert s k t = true ↔
          ((s.stats (MakeKey k)).isSome = true ∧
            t ≤ KVCP_GetInvalidationCount s k)) ∧
    (∀ (s : KVCPState) (k : KVCPKeyCtx) (t : Nat),
        applyOp s (KVCPOp.skipRead k t) = s) := by
  refine ⟨fun s k t => ?_, fun s k t => rfl⟩
  show ShouldSkipInsert s k t = true ↔ _
  unfold ShouldSkipInsert KVCP_GetInvalidationCount GetInvalidation
  cases s.stats (MakeKey k) <;> simp

/-- Claim C6: `ClearAll` empties the stats table — afterwards both
counters read 0 and `ShouldSkipInsert` is false for every key and
threshold — while the threshold table is untouched: `GetThreshold` is
unchanged, and a previously set value is still returned. -/
theorem C6_clearAll_drops_entries_keeps_thresholds (s : KVCPState) :
    (∀ k : KVCPKeyCtx, KVCP_GetInvalidationCount (KVCP_ClearAll s) k = 0) ∧
    (∀ k : KVCPKeyCtx, KVCP_GetCachedKeyCount (KVCP_ClearAll s) k = 0) ∧
    (∀ (k : KVCPKeyCtx) (t : Nat),
        KVCP_ShouldSkipRowCacheInsert (KVCP_ClearAll s) k t = false) ∧
    (∀ d c : Nat,
        KVCP_GetThreshold (KVCP_ClearAll s) d c = KVCP_GetThreshold s d c) ∧
    (∀ d c v : Nat,
        KVCP_GetThreshold (KVCP_ClearAll (KVCP_SetThreshold s d c v)) d c
          = v) := by
  refine ⟨fun k => rfl, fun k => rfl, fun k t => rfl, fun d c => rfl,
    fun d c v => ?_⟩
  show ThresholdGet (ClearAll (ThresholdSet s d c v)) d c = v
  rw [ThresholdGet_eq]
  show (mapUpd s.thresholds ⟨d, c⟩ v ⟨d, c⟩).getD kKVCPDefaultThreshold = v
  rw [mapUpd_self]
  rfl

/-- Claim C7: `GetThreshold(db, ns)` returns the value of the most
recent `SetThreshold(db, ns, v)` in the history when one exists
(round-trip, including overwrite), and the default 3 when none does. -/
theorem C7_threshold_roundtrip_and_default :
    (∀ (s : KVCPState) (d c v : Nat),
        KVCP_GetThreshold (KVCP_SetThreshold s d c v) d c = v) ∧
    (∀ (s : KVCPState) (d c v1 v2 : Nat),
        KVCP_GetThreshold
          (KVCP_SetThreshold (KVCP_SetThreshold s d c v1) d c v2) d c = v2) ∧
    (∀ (l : List KVCPOp) (d c : Nat),
        KVCP_GetThreshold (applyOps initState l) d c =
          (LastThresholdSet d c l).getD kKVCPDefaultThreshold) ∧
    kKVCPDefaultThreshold = 3 := by
  have hset : ∀ (s : KVCPState) (d c v : Nat),
      KVCP_GetThreshold (KVCP_SetThreshold s d c v) d c = v := by
    intro s d c v
    show ThresholdGet (ThresholdSet s d c v) d c = v
    rw [ThresholdGet_eq]
    show (mapUpd s.thresholds ⟨d, c⟩ v ⟨d, c⟩).getD kKVCPDefaultThreshold = v
    rw [mapUpd_self]
    rfl
  refine ⟨hset, fun s d c v1 v2 => hset _ d c v2, fun l d c => ?_, rfl⟩
  show ThresholdGet (applyOps initState l) d c = _
  rw [ThresholdGet_eq, applyOps_thresholds]
  rfl

/-- Claim C8: `GetCachedKeyCount` is a pure read (in this embedding it
returns only a number and no state) giving the entry's current
`cached_key_count`, and 0 when no entry exists. -/
theorem C8_getCachedKeyCount_reads_count (s : KVCPState) (k : KVCPKeyCtx) :
    (s.stats (MakeKey k) = none → KVCP_GetCachedKeyCount s k = 0) ∧
    (∀ e : Entry, s.stats (MakeKey k) = some e →
        KVCP_GetCachedKeyCount s k = e.cached_key_count) := by
  constructor
  · intro h
    simp [KVCP_GetCachedKeyCount, h]
  · intro e h
    simp [KVCP_GetCachedKeyCount, h]

/-- Witness for C8 at concrete inputs: the empty table reads 0 for
`keyA`, and after one insert the read is 1. -/
theorem C8_getCachedKeyCount_reads_count_witness :
    KVCP_GetCachedKeyCount initState keyA = 0 ∧
    KVCP_GetCachedKeyCount (KVCP_OnRowCacheInsert initState keyA) keyA = 1 :=
  ⟨(C8_getCachedKeyCount_reads_count initState keyA).1 rfl,
    (C8_getCachedKeyCount_reads_count
      (KVCP_OnRowCacheInsert initState keyA) keyA).2 ⟨1, 0⟩ (by decide)⟩

lemma stats_OnInsert_self (s : KVCPState) (k : KVCPKeyCtx) :
    (OnInsert s k).stats (MakeKey k) =
      some ⟨wrap32 (((s.stats (MakeKey k)).getD ⟨0, 0⟩).cached_key_count + 1),
        ((s.stats (MakeKey k)).getD ⟨0, 0⟩).invalidation_count⟩ := by
  simp [OnInsert, mapUpd_self]

lemma stats_OnInsert_ne (s : KVCPState) (k : KVCPKeyCtx) (h : HKey)
    (hne : h ≠ MakeKey k) : (OnInsert s k).stats h = s.stats h := by
  simp [OnInsert, mapUpd_ne _ _ _ _ hne]

lemma stats_OnMiss_ne (s : KVCPState) (k : KVCPKeyCtx) (h : HKey)
    (hne : h ≠ MakeKey k) : (OnMiss s k).stats h = s.stats h := by
  unfold OnMiss
  cases s.stats (MakeKey k) with
  | none => rfl
  | some e =>
    by_cases hc : 0 < e.cached_key_count <;>
      simp [hc, mapUpd_ne _ _ _ _ hne]

lemma stats_OnEvict_ne (s : KVCPState) (k : KVCPKeyCtx) (h : HKey)
    (hne : h ≠ MakeKey k) : (OnEvict s k).stats h = s.stats h := by
  unfold OnEvict
  cases s.stats (MakeKey k) with
  | none => rfl
  | some e =>
    by_cases hc : 1 < e.cached_key_count <;>
      simp [hc, mapUpd_ne _ _ _ _ hne, mapDel_ne _ _ _ hne]

lemma EntryBound.mono {m m2 : Nat} {s : KVCPState} (hs : EntryBound m s)
    (hm : m ≤ m2) : EntryBound m2 s := by
  intro h e he
  have := hs h e he
  omega

lemma stepBound (s : KVCPState) (op : KVCPOp) (m : Nat)
    (hs : EntryBound m s) (hm : m + 1 < 4294967296) :
    EntryBound (m + 1) (applyOp s op) := by
  cases op with
  | insert k =>
    intro h e he
    by_cases hk : h = MakeKey k
    · subst hk
      rw [show applyOp s (KVCPOp.insert k) = OnInsert s k from rfl,
        stats_OnInsert_self] at he
      cases h0 : s.stats (MakeKey k) with
      | none =>
        rw [h0] at he
        simp only [Option.getD_none, Option.some.injEq] at he
        subst he
        constructor <;> simp [wrap32]
      | some e1 =>
        rw [h0] at he
        simp only [Option.getD_some, Option.some.injEq] at he
        subst he
        have hb := hs _ _ h0
        have hlt : e1.cached_key_count + 1 < 4294967296 := by omega
        simp only [wrap32, Nat.mod_eq_of_lt hlt]
        omega
    · rw [show applyOp s (KVCPOp.insert k) = OnInsert s k from rfl,
        stats_OnInsert_ne s k h hk] at he
      have := hs h e he
      omega
  | evict k =>
    intro h e he
    by_cases hk : h = MakeKey k
    · subst hk
      rw [show applyOp s (KVCPOp.evict k) = OnEvict s k from rfl] at he
      unfold OnEvict at he
      cases h0 : s.stats (MakeKey k) with
      | none =>
        rw [h0] at he
        have := hs _ _ he
        omega
      | some e1 =>
        rw [h0] at he
        by_cases hc : 1 < e1.cached_key_count
        · simp only [hc, if_true, mapUpd_self, Option.some.injEq] at he
          subst he
          have hb := hs _ _ h0
          simp only []
          omega
        · simp only [hc, if_false, mapDel_self] at he
          exact absurd he (by simp)
    · rw [show applyOp s (KVCPOp.evict k) = OnEvict s k from rfl,
        stats_OnEvict_ne s k h hk] at he
      have := hs h e he
      omega
  | miss k =>
    intro h e he
    by_cases hk : h = MakeKey k
    · subst hk
      rw [show applyOp s (KVCPOp.miss k) = OnMiss s k from rfl] at he
      unfold OnMiss at he
      cases h0 : s.stats (MakeKey k) with
      | none =>
        rw [h0] at he
        have := hs _ _ he
        omega
      | some e1 =>
        rw [h0] at he
        by_cases hc : 0 < e1.cached_key_count
        · simp only [hc, if_true, mapUpd_self, Option.some.injEq] at he
          subst he
          have hb := hs _ _ h0
          simp only []
          omega
        · simp only [hc, if_false] at he
          have := hs _ _ he
          omega
    · rw [show applyOp s (KVCPOp.miss k) = OnMiss s k from rfl,
        stats_OnMiss_ne s k h hk] at he
      have := hs h e he
      omega
  | clear =>
    intro h e he
    exact absurd he (by simp [applyOp, ClearAll])
  | skipRead k t => exact hs.mono (by omega)
  | invalRead k => exact hs.mono (by omega)
  | cachedRead k => exact hs.mono (by omega)
  | thresholdRead d c => exact hs.mono (by omega)
  | setThreshold d c v =>
    intro h e he
    exact (hs.mono (Nat.le_succ m)) h e he
  | setHybrid b =>
    intro h e he
    exact (hs.mono (Nat.le_succ m)) h e he
  | hybridRead => exact hs.mono (by omega)

lemma applyOpsBound : ∀ (l : List KVCPOp) (s : KVCPState) (m : Nat),
    EntryBound m s → m + l.length < 4294967296 →
    EntryBound (m + l.length) (applyOps s l) := by
  intro l
  induction l with
  | nil =>
    intro s m hs _
    simpa using hs
  | cons op l2 ih =>
    intro s m hs hlen
    have hlen2 : m + 1 + l2.length < 4294967296 := by
      simp only [List.length_cons] at hlen
      omega
    have h1 : EntryBound (m + 1) (applyOp s op) :=
      stepBound s op m hs (by omega)
    have h2 := ih (applyOp s op) (m + 1) h1 hlen2
    have heq : m + (op :: l2).length = m + 1 + l2.length := by
      simp only [List.length_cons]
      omega
    rw [heq]
    exact h2

lemma insertIterAux : ∀ (n : Nat) (s : KVCPState) (k : KVCPKeyCtx)
    (c i : Nat), c < 4294967296 → s.stats (MakeKey k) = some ⟨c, i⟩ →
    (applyOps s (List.replicate n (KVCPOp.insert k))).stats (MakeKey k) =
      some ⟨(c + n) % 4294967296, i⟩ := by
  intro n
  induction n with
  | zero =>
    intro s k c i hc hs
    simpa [applyOps, Nat.mod_eq_of_lt hc] using hs
  | succ n ih =>
    intro s k c i hc hs
    rw [List.replicate_succ]
    show (applyOps (applyOp s (KVCPOp.insert k))
      (List.replicate n (KVCPOp.insert k))).stats (MakeKey k) = _
    have h1 : (applyOp s (KVCPOp.insert k)).stats (MakeKey k) =
        some ⟨(c + 1) % 4294967296, i⟩ := by
      show (OnInsert s k).stats (MakeKey k) = _
      rw [stats_OnInsert_self, hs]
      simp [wrap32]
    rw [ih _ k _ i (Nat.mod_lt _ (by norm_num)) h1]
    have harith : ((c + 1) % 4294967296 + n) % 4294967296 =
        (c + (n + 1)) % 4294967296 := by
      rw [Nat.mod_add_mod]
      congr 1
      omega
    rw [harith]

lemma insertIter (k : KVCPKeyCtx) (n : Nat) (hn : 1 ≤ n) :
    (applyOps initState (List.replicate n (KVCPOp.insert k))).stats
      (MakeKey k) = some ⟨n % 4294967296, 0⟩ := by
  obtain ⟨n2, rfl⟩ : ∃ n2, n = n2 + 1 := ⟨n - 1, by omega⟩
  rw [List.replicate_succ]
  show (applyOps (applyOp initState (KVCPOp.insert k))
    (List.replicate n2 (KVCPOp.insert k))).stats (MakeKey k) = _
  have h1 : (applyOp initState (KVCPOp.insert k)).stats (MakeKey k) =
      some ⟨1, 0⟩ := by
    show (OnInsert initState k).stats (MakeKey k) = _
    rw [stats_OnInsert_self]
    simp [initState, wrap32]
  rw [insertIterAux n2 _ k 1 0 (by norm_num) h1]
  rw [Nat.add_comm 1 n2]

lemma missIterAux : ∀ (n : Nat) (s : KVCPState) (k : KVCPKeyCtx)
    (c i : Nat), 0 < c → i < 4294967296 → s.stats (MakeKey k) = some ⟨c, i⟩ →
    (applyOps s (List.replicate n (KVCPOp.miss k))).stats (MakeKey k) =
      some ⟨c, (i + n) % 4294967296⟩ := by
  intro n
  induction n with
  | zero =>
    intro s k c i hc hi hs
    simpa [applyOps, Nat.mod_eq_of_lt hi] using hs
  | succ n ih =>
    intro s k c i hc hi hs
    rw [List.replicate_succ]
    show (applyOps (applyOp s (KVCPOp.miss k))
      (List.replicate n (KVCPOp.miss k))).stats (MakeKey k) = _
    have h1 : (applyOp s (KVCPOp.miss k)).stats (MakeKey k) =
        some ⟨c, (i + 1) % 4294967296⟩ := by
      show (OnMiss s k).stats (MakeKey k) = _
      unfold OnMiss
      rw [hs]
      simp [hc, mapUpd_self, wrap32]
    rw [ih _ k c _ hc (Nat.mod_lt _ (by norm_num)) h1]
    have harith : ((i + 1) % 4294967296 + n) % 4294967296 =
        (i + (n + 1)) % 4294967296 := by
      rw [Nat.mod_add_mod]
      congr 1
      omega
    rw [harith]

lemma missIterNone : ∀ (n : Nat) (s : KVCPState) (k : KVCPKeyCtx),
    s.stats (MakeKey k) = none →
    (applyOps s (List.replicate n (KVCPOp.miss k))).stats (MakeKey k) =
      none := by
  intro n
  induction n with
  | zero =>
    intro s k hn
    simpa [applyOps] using hn
  | succ n ih =>
    intro s k hn
    rw [List.replicate_succ]
    show (applyOps (applyOp s (KVCPOp.miss k))
      (List.replicate n (KVCPOp.miss k))).stats (MakeKey k) = _
    have hstep : applyOp s (KVCPOp.miss k) = s := by
      show OnMiss s k = s
      unfold OnMiss
      rw [hn]
    rw [hstep]
    exact ih s k hn

lemma applyOps_cons (s : KVCPState) (op : KVCPOp) (l : List KVCPOp) :
    applyOps s (op :: l) = applyOps (applyOp s op) l := rfl

lemma wrapTraceInsert_eq :
    wrapTraceInsert = List.replicate 4294967296 (KVCPOp.insert keyA) := rfl

lemma almostWrapTrace_eq :
    almostWrapTrace = List.replicate 4294967295 (KVCPOp.insert keyA) := rfl

lemma wrapTraceMiss_eq :
    wrapTraceMiss =
      KVCPOp.insert keyA :: List.replicate 4294967296 (KVCPOp.miss keyA) :=
  rfl

lemma wrapState_entry :
    (applyOps initState wrapTraceInsert).stats (MakeKey keyA) =
      some ⟨0, 0⟩ := by
  have h := insertIter keyA 4294967296 (by norm_num)
  have h2 : (4294967296 : Nat) % 4294967296 = 0 := by norm_num
  rw [h2] at h
  rw [wrapTraceInsert_eq]
  exact h

lemma almostWrapState_entry :
    (applyOps initState almostWrapTrace).stats (MakeKey keyA) =
      some ⟨4294967295, 0⟩ := by
  have h := insertIter keyA 4294967295 (by norm_num)
  have h2 : (4294967295 : Nat) % 4294967296 = 4294967295 := by norm_num
  rw [h2] at h
  rw [almostWrapTrace_eq]
  exact h

lemma missWrapState_entry :
    (applyOps initState wrapTraceMiss).stats (MakeKey keyA) =
      some ⟨1, 0⟩ := by
  rw [wrapTraceMiss_eq, applyOps_cons]
  have h1 : (applyOp initState (KVCPOp.insert keyA)).stats (MakeKey keyA) =
      some ⟨1, 0⟩ := by
    show (OnInsert initState keyA).stats (MakeKey keyA) = _
    rw [stats_OnInsert_self]
    simp [initState, wrap32]
  have h := missIterAux 4294967296 _ keyA 1 0 (by norm_num) (by norm_num) h1
  have h2 : (0 + 4294967296 : Nat) % 4294967296 = 0 := by norm_num
  rw [h2] at h
  exact h

lemma getCached_none (s : KVCPState) (k : KVCPKeyCtx)
    (h : s.stats (MakeKey k) = none) : KVCP_GetCachedKeyCount s k = 0 := by
  unfold KVCP_GetCachedKeyCount
  rw [h]

lemma getCached_some (s : KVCPState) (k : KVCPKeyCtx) (e : Entry)
    (h : s.stats (MakeKey k) = some e) :
    KVCP_GetCachedKeyCount s k = e.cached_key_count := by
  unfold KVCP_GetCachedKeyCount
  rw [h]

lemma getInval_none (s : KVCPState) (k : KVCPKeyCtx)
    (h : s.stats (MakeKey k) = none) : KVCP_GetInvalidationCount s k = 0 := by
  show GetInvalidation s k = 0
  unfold GetInvalidation
  rw [h]

lemma getInval_some (s : KVCPState) (k : KVCPKeyCtx) (e : Entry)
    (h : s.stats (MakeKey k) = some e) :
    KVCP_GetInvalidationCount s k = e.invalidation_count := by
  show GetInvalidation s k = _
  unfold GetInvalidation
  rw [h]

lemma shouldSkip_none (s : KVCPState) (k : KVCPKeyCtx) (t : Nat)
    (h : s.stats (MakeKey k) = none) :
    KVCP_ShouldSkipRowCacheInsert s k t = false := by
  show ShouldSkipInsert s k t = false
  unfold ShouldSkipInsert
  rw [h]

lemma shouldSkip_some (s : KVCPState) (k : KVCPKeyCtx) (e : Entry) (t : Nat)
    (h : s.stats (MakeKey k) = some e) :
    KVCP_ShouldSkipRowCacheInsert s k t =
      decide (t ≤ e.invalidation_count) := by
  show ShouldSkipInsert s k t = _
  unfold ShouldSkipInsert
  rw [h]

lemma stats_none_preserved (s : KVCPState) (op : KVCPOp) (h : HKey)
    (hn : s.stats h = none) (hni : ∀ k, op ≠ KVCPOp.insert k) :
    (applyOp s op).stats h = none := by
  cases op with
  | insert k => exact absurd rfl (hni k)
  | miss k =>
    by_cases hk : h = MakeKey k
    · subst hk
      show (OnMiss s k).stats (MakeKey k) = none
      unfold OnMiss
      rw [hn]
      exact hn
    · show (OnMiss s k).stats h = none
      rw [stats_OnMiss_ne s k h hk]
      exact hn
  | evict k =>
    by_cases hk : h = MakeKey k
    · subst hk
      show (OnEvict s k).stats (MakeKey k) = none
      unfold OnEvict
      rw [hn]
      exact hn
    · show (OnEvict s k).stats h = none
      rw [stats_OnEvict_ne s k h hk]
      exact hn
  | clear => rfl
  | skipRead k t => exact hn
  | invalRead k => exact hn
  | cachedRead k => exact hn
  | setThreshold d c v => exact hn
  | thresholdRead d c => exact hn
  | setHybrid b => exact hn
  | hybridRead => exact hn

/-- Counterexample to claim C2 as stated: the state reached from the
empty table by `2 ^ 32` `OnInsert` calls on one key is reachable, yet its
entry still exists while its `uint32_t` cached count has wrapped to 0,
so "an Entry exists iff `cached_count ≥ 1`" fails there. -/
theorem C2_counterexample :
    Reachable (applyOps initState wrapTraceInsert) ∧
    ((applyOps initState wrapTraceInsert).stats (MakeKey keyA)).isSome
      = true ∧
    KVCP_GetCachedKeyCount (applyOps initState wrapTraceInsert) keyA = 0 := by
  refine ⟨⟨wrapTraceInsert, rfl⟩, ?_, ?_⟩
  · rw [wrapState_entry]
    rfl
  · rw [getCached_some _ _ _ wrapState_entry]

/-- Claim C2 (amended): for every state reachable from the empty table
by a sequence of fewer than `2 ^ 32` operations — short enough that no
`uint32_t` cached count can wrap — an entry exists for a key iff its
cached count is at least 1; so every operation of such a sequence
preserves the existence invariant. -/
theorem C2_exists_iff_cached_pos (l : List KVCPOp)
    (hl : l.length < 4294967296) (k : KVCPKeyCtx) :
    ((applyOps initState l).stats (MakeKey k)).isSome = true ↔
      1 ≤ KVCP_GetCachedKeyCount (applyOps initState l) k := by
  have hb : EntryBound (0 + l.length) (applyOps initState l) :=
    applyOpsBound l initState 0
      (by intro h e he; simp [initState] at he) (by omega)
  cases hs : (applyOps initState l).stats (MakeKey k) with
  | none =>
    rw [getCached_none _ _ hs]
    simp
  | some e =>
    rw [getCached_some _ _ _ hs]
    have h1 := (hb _ _ hs).1
    simp [h1]

/-- Witness for C2 (amended) at a concrete one-operation trace. -/
theorem C2_exists_iff_cached_pos_witness :
    ((applyOps initState [KVCPOp.insert keyA]).stats (MakeKey keyA)).isSome
      = true ↔
    1 ≤ KVCP_GetCachedKeyCount (applyOps initState [KVCPOp.insert keyA])
      keyA :=
  C2_exists_iff_cached_pos [KVCPOp.insert keyA] (by norm_num) keyA

/-- Counterexample to claim C3 as stated: in the reachable state whose
entry for `keyA` has `cached_key_count = 2 ^ 32 - 1`, one more
`OnRowCacheInsert` leaves the count at 0 (uint32 wraparound), not at the
old count plus one. -/
theorem C3_counterexample :
    Reachable (applyOps initState almostWrapTrace) ∧
    KVCP_GetCachedKeyCount (applyOps initState almostWrapTrace) keyA
      = 4294967295 ∧
    KVCP_GetCachedKeyCount
      (KVCP_OnRowCacheInsert (applyOps initState almostWrapTrace) keyA) keyA
      = 0 ∧
    (0 : Nat) ≠ 4294967295 + 1 := by
  refine ⟨⟨almostWrapTrace, rfl⟩, ?_, ?_, by norm_num⟩
  · rw [getCached_some _ _ _ almostWrapState_entry]
  · have hstat : (KVCP_OnRowCacheInsert (applyOps initState almostWrapTrace)
        keyA).stats (MakeKey keyA) = some ⟨0, 0⟩ := by
      show (OnInsert _ keyA).stats (MakeKey keyA) = _
      rw [stats_OnInsert_self, almostWrapState_entry]
      norm_num [wrap32]
    rw [getCached_some _ _ _ hstat]

/-- Claim C3 (amended): `OnRowCacheInsert` creates the entry as
`{cached_count = 1, invalidation_count = 0}` when absent, and otherwise
adds one to `cached_count` modulo `2 ^ 32` (uint32 wraparound) leaving
`invalidation_count` unchanged; and it is the only operation that
creates an entry. -/
theorem C3_insert_behavior :
    (∀ (s : KVCPState) (k : KVCPKeyCtx), s.stats (MakeKey k) = none →
        (KVCP_OnRowCacheInsert s k).stats (MakeKey k) = some ⟨1, 0⟩) ∧
    (∀ (s : KVCPState) (k : KVCPKeyCtx) (e : Entry),
        s.stats (MakeKey k) = some e →
        (KVCP_OnRowCacheInsert s k).stats (MakeKey k) =
          some ⟨wrap32 (e.cached_key_count + 1), e.invalidation_count⟩) ∧
    (∀ (op : KVCPOp) (s : KVCPState) (h : HKey), s.stats h = none →
        ((applyOp s op).stats h).isSome = true →
        ∃ k : KVCPKeyCtx, op = KVCPOp.insert k ∧ MakeKey k = h) := by
  refine ⟨?_, ?_, ?_⟩
  · intro s k hn
    show (OnInsert s k).stats (MakeKey k) = _
    rw [stats_OnInsert_self, hn]
    simp [wrap32]
  · intro s k e hse
    show (OnInsert s k).stats (MakeKey k) = _
    rw [stats_OnInsert_self, hse]
    rfl
  · intro op s h hn hs
    cases op with
    | insert k =>
      by_cases hk : h = MakeKey k
      · exact ⟨k, rfl, hk.symm⟩
      · rw [show applyOp s (KVCPOp.insert k) = OnInsert s k from rfl,
          stats_OnInsert_ne s k h hk, hn] at hs
        simp at hs
    | miss k =>
      rw [stats_none_preserved s (KVCPOp.miss k) h hn
        (fun k2 hx => KVCPOp.noConfusion hx)] at hs
      simp at hs
    | evict k =>
      rw [stats_none_preserved s (KVCPOp.evict k) h hn
        (fun k2 hx => KVCPOp.noConfusion hx)] at hs
      simp at hs
    | clear =>
      rw [stats_none_preserved s KVCPOp.clear h hn
        (fun k2 hx => KVCPOp.noConfusion hx)] at hs
      simp at hs
    | skipRead k t =>
      rw [stats_none_preserved s (KVCPOp.skipRead k t) h hn
        (fun k2 hx => KVCPOp.noConfusion hx)] at hs
      simp at hs
    | invalRead k =>
      rw [stats_none_preserved s (KVCPOp.invalRead k) h hn
        (fun k2 hx => KVCPOp.noConfusion hx)] at hs
      simp at hs
    | cachedRead k =>
      rw [stats_none_preserved s (KVCPOp.cachedRead k) h hn
        (fun k2 hx => KVCPOp.noConfusion hx)] at hs
      simp at hs
    | setThreshold d c v =>
      rw [stats_none_preserved s (KVCPOp.setThreshold d c v) h hn
        (fun k2 hx => KVCPOp.noConfusion hx)] at hs
      simp at hs
    | thresholdRead d c =>
      rw [stats_none_preserved s (KVCPOp.thresholdRead d c) h hn
        (fun k2 hx => KVCPOp.noConfusion hx)] at hs
      simp at hs
    | setHybrid b =>
      rw [stats_none_preserved s (KVCPOp.setHybrid b) h hn
        (fun k2 hx => KVCPOp.noConfusion hx)] at hs
      simp at hs
    | hybridRead =>
      rw [stats_none_preserved s KVCPOp.hybridRead h hn
        (fun k2 hx => KVCPOp.noConfusion hx)] at hs
      simp at hs

/-- Witness for C3 (amended): creation at an absent key, then an
increment of an existing entry, at concrete inputs. -/
theorem C3_insert_behavior_witness :
    (KVCP_OnRowCacheInsert initState keyA).stats (MakeKey keyA)
      = some ⟨1, 0⟩ ∧
    (KVCP_OnRowCacheInsert (KVCP_OnRowCacheInsert initState keyA)
      keyA).stats (MakeKey keyA) = some ⟨2, 0⟩ := by
  constructor
  · exact C3_insert_behavior.1 initState keyA rfl
  · have h := C3_insert_behavior.2.1 (KVCP_OnRowCacheInsert initState keyA)
      keyA ⟨1, 0⟩ (by decide)
    rw [h]
    decide

lemma KVCP_OnRowCacheEvict_eq : KVCP_OnRowCacheEvict = OnEvict := rfl

lemma KVCP_OnRowCacheInsert_eq : KVCP_OnRowCacheInsert = OnInsert := rfl

lemma KVCP_OnRowCacheInvalidation_eq :
    KVCP_OnRowCacheInvalidation = OnMiss := rfl

lemma OnEvict_absent (s : KVCPState) (k : KVCPKeyCtx)
    (h : s.stats (MakeKey k) = none) : OnEvict s k = s := by
  unfold OnEvict
  rw [h]

lemma stats_OnEvict_del (s : KVCPState) (k : KVCPKeyCtx) (e : Entry)
    (hse : s.stats (MakeKey k) = some e) (hc : e.cached_key_count ≤ 1) :
    (OnEvict s k).stats (MakeKey k) = none := by
  unfold OnEvict
  rw [hse]
  have hnc : ¬ 1 < e.cached_key_count := by omega
  simp [hnc, mapDel_self]

lemma stats_OnEvict_dec (s : KVCPState) (k : KVCPKeyCtx) (e : Entry)
    (hse : s.stats (MakeKey k) = some e) (hc : 2 ≤ e.cached_key_count) :
    (OnEvict s k).stats (MakeKey k) =
      some ⟨e.cached_key_count - 1, e.invalidation_count⟩ := by
  unfold OnEvict
  rw [hse]
  have hc2 : 1 < e.cached_key_count := by omega
  simp [hc2, mapUpd_self]

lemma OnMiss_absent (s : KVCPState) (k : KVCPKeyCtx)
    (h : s.stats (MakeKey k) = none) : OnMiss s k = s := by
  unfold OnMiss
  rw [h]

lemma OnMiss_zero (s : KVCPState) (k : KVCPKeyCtx) (e : Entry)
    (hse : s.stats (MakeKey k) = some e) (hc : e.cached_key_count = 0) :
    OnMiss s k = s := by
  unfold OnMiss
  rw [hse]
  simp [hc]

lemma stats_OnMiss_incr (s : KVCPState) (k : KVCPKeyCtx) (e : Entry)
    (hse : s.stats (MakeKey k) = some e) (hc : 0 < e.cached_key_count) :
    (OnMiss s k).stats (MakeKey k) =
      some ⟨e.cached_key_count, wrap32 (e.invalidation_count + 1)⟩ := by
  unfold OnMiss
  rw [hse]
  simp [hc, mapUpd_self]

/-- Counterexample to claim C4 as stated: in the reachable state whose
entry for `keyA` exists with `cached_key_count = 0` (after the uint32
count wrapped), `cached_count` is not 1, so the claim's "otherwise"
branch prescribes a decrement that keeps the entry; the code instead
deletes the entry. -/
theorem C4_counterexample :
    Reachable (applyOps initState wrapTraceInsert) ∧
    (applyOps initState wrapTraceInsert).stats (MakeKey keyA)
      = some ⟨0, 0⟩ ∧
    (0 : Nat) ≠ 1 ∧
    (KVCP_OnRowCacheEvict (applyOps initState wrapTraceInsert)
      keyA).stats (MakeKey keyA) = none := by
  refine ⟨⟨wrapTraceInsert, rfl⟩, wrapState_entry, by norm_num, ?_⟩
  rw [KVCP_OnRowCacheEvict_eq]
  exact stats_OnEvict_del _ keyA ⟨0, 0⟩ wrapState_entry (by norm_num)

/-- Claim C4 (amended): `OnRowCacheEvict` is a no-op when no entry
exists; when the entry's `cached_count` is at most 1 (equal to 1 in any
state satisfying the existence invariant) it deletes the entry entirely,
after which `GetInvalidationCount` reads 0 and `ShouldSkipInsert` is
false for every threshold; when `cached_count ≥ 2` it decrements the
count by one.  After Insert, Insert, Evict from the empty table the
entry survives with count 1, and a second Evict removes it. -/
theorem C4_evict_behavior :
    (∀ (s : KVCPState) (k : KVCPKeyCtx), s.stats (MakeKey k) = none →
        KVCP_OnRowCacheEvict s k = s) ∧
    (∀ (s : KVCPState) (k : KVCPKeyCtx) (e : Entry),
        s.stats (MakeKey k) = some e → e.cached_key_count ≤ 1 →
        (KVCP_OnRowCacheEvict s k).stats (MakeKey k) = none ∧
        KVCP_GetInvalidationCount (KVCP_OnRowCacheEvict s k) k = 0 ∧
        ∀ t : Nat,
          KVCP_ShouldSkipRowCacheInsert (KVCP_OnRowCacheEvict s k) k t
            = false) ∧
    (∀ (s : KVCPState) (k : KVCPKeyCtx) (e : Entry),
        s.stats (MakeKey k) = some e → 2 ≤ e.cached_key_count →
        (KVCP_OnRowCacheEvict s k).stats (MakeKey k) =
          some ⟨e.cached_key_count - 1, e.invalidation_count⟩) ∧
    (∀ k : KVCPKeyCtx,
        KVCP_GetCachedKeyCount
          (KVCP_OnRowCacheEvict (KVCP_OnRowCacheInsert
            (KVCP_OnRowCacheInsert initState k) k) k) k = 1 ∧
        ((KVCP_OnRowCacheEvict (KVCP_OnRowCacheInsert
          (KVCP_OnRowCacheInsert initState k) k) k).stats
            (MakeKey k)).isSome = true ∧
        (KVCP_OnRowCacheEvict (KVCP_OnRowCacheEvict (KVCP_OnRowCacheInsert
          (KVCP_OnRowCacheInsert initState k) k) k) k).stats (MakeKey k)
            = none ∧
        KVCP_GetCachedKeyCount
          (KVCP_OnRowCacheEvict (KVCP_OnRowCacheEvict (KVCP_OnRowCacheInsert
            (KVCP_OnRowCacheInsert initState k) k) k) k) k = 0) := by
  refine ⟨?_, ?_, ?_, ?_⟩
  · intro s k hn
    rw [KVCP_OnRowCacheEvict_eq]
    exact OnEvict_absent s k hn
  · intro s k e hse hc
    rw [KVCP_OnRowCacheEvict_eq]
    have h0 := stats_OnEvict_del s k e hse hc
    exact ⟨h0, getInval_none _ _ h0, fun t => shouldSkip_none _ _ t h0⟩
  · intro s k e hse hc
    rw [KVCP_OnRowCacheEvict_eq]
    exact stats_OnEvict_dec s k e hse hc
  · intro k
    rw [KVCP_OnRowCacheEvict_eq, KVCP_OnRowCacheInsert_eq]
    have h1 : (OnInsert initState k).stats (MakeKey k) = some ⟨1, 0⟩ := by
      rw [stats_OnInsert_self]
      simp [initState, wrap32]
    have h2 : (OnInsert (OnInsert initState k) k).stats (MakeKey k)
        = some ⟨2, 0⟩ := by
      rw [stats_OnInsert_self, h1]
      simp [wrap32]
    have h3 : (OnEvict (OnInsert (OnInsert initState k) k) k).stats
        (MakeKey k) = some ⟨1, 0⟩ := by
      have := stats_OnEvict_dec (OnInsert (OnInsert initState k) k) k
        ⟨2, 0⟩ h2 (by norm_num)
      simpa using this
    have h4 : (OnEvict (OnEvict (OnInsert (OnInsert initState k) k) k)
        k).stats (MakeKey k) = none :=
      stats_OnEvict_del _ k ⟨1, 0⟩ h3 (by norm_num)
    refine ⟨?_, ?_, h4, getCached_none _ _ h4⟩
    · rw [getCached_some _ _ _ h3]
    · rw [h3]
      rfl

/-- Witness for C4 (amended): the no-op, delete and decrement branches
and the insert-insert-evict scenario at concrete inputs. -/
theorem C4_evict_behavior_witness :
    KVCP_OnRowCacheEvict initState keyA = initState ∧
    (KVCP_OnRowCacheEvict (KVCP_OnRowCacheInsert initState keyA)
      keyA).stats (MakeKey keyA) = none ∧
    KVCP_ShouldSkipRowCacheInsert
      (KVCP_OnRowCacheEvict (KVCP_OnRowCacheInsert initState keyA) keyA)
      keyA 0 = false ∧
    (KVCP_OnRowCacheEvict (KVCP_OnRowCacheInsert (KVCP_OnRowCacheInsert
      initState keyA) keyA) keyA).stats (MakeKey keyA) = some ⟨1, 0⟩ := by
  refine ⟨C4_evict_behavior.1 initState keyA rfl, ?_, ?_, ?_⟩
  · exact (C4_evict_behavior.2.1 _ keyA ⟨1, 0⟩ (by decide) (by decide)).1
  · exact (C4_evict_behavior.2.1 _ keyA ⟨1, 0⟩ (by decide) (by decide)).2.2 0
  · have h := C4_evict_behavior.2.2.1
      (KVCP_OnRowCacheInsert (KVCP_OnRowCacheInsert initState keyA) keyA)
      keyA ⟨2, 0⟩ (by decide) (by decide)
    simpa using h

/-- Counterexample to claim C5 as stated: after one insert of `keyA`
followed by `2 ^ 32` misses of `keyA`, `GetInvalidationCount` returns 0
(the `uint32_t` counter wrapped), not the number of misses. -/
theorem C5_counterexample :
    Reachable (applyOps initState wrapTraceMiss) ∧
    KVCP_GetInvalidationCount (applyOps initState wrapTraceMiss) keyA
      = 0 ∧
    (0 : Nat) ≠ 4294967296 := by
  refine ⟨⟨wrapTraceMiss, rfl⟩, ?_, by norm_num⟩
  rw [getInval_some _ _ _ missWrapState_entry]

/-- Claim C5 (amended): the miss hook adds one to `invalidation_count`
modulo `2 ^ 32` (uint32 wraparound) exactly when an entry exists with
`cached_count > 0`, and is a no-op when no entry exists (or when the
entry's count is 0); after one insert and `N` misses on a key,
`GetInvalidationCount` returns `N mod 2 ^ 32` (equal to `N` whenever
`N < 2 ^ 32`), and any number of misses on a never-inserted key leaves
it at 0. -/
theorem C5_miss_behavior :
    (∀ (s : KVCPState) (k : KVCPKeyCtx), s.stats (MakeKey k) = none →
        KVCP_OnRowCacheInvalidation s k = s) ∧
    (∀ (s : KVCPState) (k : KVCPKeyCtx) (e : Entry),
        s.stats (MakeKey k) = some e → 0 < e.cached_key_count →
        (KVCP_OnRowCacheInvalidation s k).stats (MakeKey k) =
          some ⟨e.cached_key_count, wrap32 (e.invalidation_count + 1)⟩) ∧
    (∀ (s : KVCPState) (k : KVCPKeyCtx) (e : Entry),
        s.stats (MakeKey k) = some e → e.cached_key_count = 0 →
        KVCP_OnRowCacheInvalidation s k = s) ∧
    (∀ (n : Nat) (k : KVCPKeyCtx),
        KVCP_GetInvalidationCount
          (applyOps initState
            (KVCPOp.insert k :: List.replicate n (KVCPOp.miss k))) k
          = n % 4294967296) ∧
    (∀ (n : Nat) (k : KVCPKeyCtx),
        KVCP_GetInvalidationCount
          (applyOps initState (List.replicate n (KVCPOp.miss k))) k
          = 0) := by
  refine ⟨?_, ?_, ?_, ?_, ?_⟩
  · intro s k hn
    rw [KVCP_OnRowCacheInvalidation_eq]
    exact OnMiss_absent s k hn
  · intro s k e hse hc
    rw [KVCP_OnRowCacheInvalidation_eq]
    exact stats_OnMiss_incr s k e hse hc
  · intro s k e hse hc
    rw [KVCP_OnRowCacheInvalidation_eq]
    exact OnMiss_zero s k e hse hc
  · intro n k
    rw [applyOps_cons]
    have h1 : (applyOp initState (KVCPOp.insert k)).stats (MakeKey k)
        = some ⟨1, 0⟩ := by
      show (OnInsert initState k).stats (MakeKey k) = _
      rw [stats_OnInsert_self]
      simp [initState, wrap32]
    have h := missIterAux n _ k 1 0 (by norm_num) (by norm_num) h1
    rw [getInval_some _ _ _ h]
    simp
  · intro n k
    have h := missIterNone n initState k rfl
    rw [getInval_none _ _ h]

/-- Witness for C5 (amended): the no-op on the empty table, one
increment of an existing entry, and a three-miss run at concrete
inputs. -/
theorem C5_miss_behavior_witness :
    KVCP_OnRowCacheInvalidation initState keyA = initState ∧
    (KVCP_OnRowCacheInvalidation (KVCP_OnRowCacheInsert initState keyA)
      keyA).stats (MakeKey keyA) = some ⟨1, 1⟩ ∧
    KVCP_GetInvalidationCount
      (applyOps initState
        (KVCPOp.insert keyA :: List.replicate 3 (KVCPOp.miss keyA))) keyA
      = 3 % 4294967296 := by
  refine ⟨C5_miss_behavior.1 initState keyA rfl, ?_,
    C5_miss_behavior.2.2.2.1 3 keyA⟩
  have h := C5_miss_behavior.2.1 (KVCP_OnRowCacheInsert initState keyA)
    keyA ⟨1, 0⟩ (by decide) (by decide)
  rw [h]
  decide

lemma reads_congr (s1 s2 : KVCPState) (k : KVCPKeyCtx)
    (h : s1.stats (MakeKey k) = s2.stats (MakeKey k)) :
    (∀ t : Nat, KVCP_ShouldSkipRowCacheInsert s1 k t =
        KVCP_ShouldSkipRowCacheInsert s2 k t) ∧
    KVCP_GetInvalidationCount s1 k = KVCP_GetInvalidationCount s2 k ∧
    KVCP_GetCachedKeyCount s1 k = KVCP_GetCachedKeyCount s2 k := by
  cases hx : s2.stats (MakeKey k) with
  | none =>
    rw [hx] at h
    exact ⟨fun t => by
        rw [shouldSkip_none _ _ t h, shouldSkip_none _ _ t hx],
      by rw [getInval_none _ _ h, getInval_none _ _ hx],
      by rw [getCached_none _ _ h, getCached_none _ _ hx]⟩
  | some e =>
    rw [hx] at h
    exact ⟨fun t => by
        rw [shouldSkip_some _ _ _ t h, shouldSkip_some _ _ _ t hx],
      by rw [getInval_some _ _ _ h, getInval_some _ _ _ hx],
      by rw [getCached_some _ _ _ h, getCached_some _ _ _ hx]⟩

/-- Claim C9: the hybrid flag is false at startup, `SetHybridEnabled`
followed by `IsHybridEnabled` round-trips, and the flag affects no other
operation: setting it commutes with every non-`setHybrid` operation, and
every read other than `IsHybridEnabled` is unchanged by it. -/
theorem C9_hybrid_flag :
    KVCP_IsHybridEnabled initState = false ∧
    (∀ (s : KVCPState) (b : Bool),
        KVCP_IsHybridEnabled (KVCP_SetHybridEnabled s b) = b) ∧
    (∀ (s : KVCPState) (b : Bool) (op : KVCPOp),
        op.isSetHybrid = false →
        applyOp (KVCP_SetHybridEnabled s b) op =
          KVCP_SetHybridEnabled (applyOp s op) b) ∧
    (∀ (s : KVCPState) (b : Bool) (k : KVCPKeyCtx) (t : Nat),
        KVCP_ShouldSkipRowCacheInsert (KVCP_SetHybridEnabled s b) k t =
          KVCP_ShouldSkipRowCacheInsert s k t) ∧
    (∀ (s : KVCPState) (b : Bool) (k : KVCPKeyCtx),
        KVCP_GetInvalidationCount (KVCP_SetHybridEnabled s b) k =
          KVCP_GetInvalidationCount s k) ∧
    (∀ (s : KVCPState) (b : Bool) (k : KVCPKeyCtx),
        KVCP_GetCachedKeyCount (KVCP_SetHybridEnabled s b) k =
          KVCP_GetCachedKeyCount s k) ∧
    (∀ (s : KVCPState) (b : Bool) (d c : Nat),
        KVCP_GetThreshold (KVCP_SetHybridEnabled s b) d c =
          KVCP_GetThreshold s d c) := by
  refine ⟨rfl, fun s b => rfl, ?_, fun s b k t => rfl, fun s b k => rfl,
    fun s b k => rfl, fun s b d c => rfl⟩
  intro s b op hop
  obtain ⟨st, th, hy⟩ := s
  cases op with
  | miss k =>
    simp only [applyOp, OnMiss, KVCP_SetHybridEnabled]
    cases hx : st (MakeKey k) with
    | none => rfl
    | some e => by_cases hc : 0 < e.cached_key_count <;> simp [hc]
  | skipRead k t => rfl
  | insert k => rfl
  | evict k =>
    simp only [applyOp, OnEvict, KVCP_SetHybridEnabled]
    cases hx : st (MakeKey k) with
    | none => rfl
    | some e => by_cases hc : 1 < e.cached_key_count <;> simp [hc]
  | invalRead k => rfl
  | cachedRead k => rfl
  | clear => rfl
  | setThreshold d c v => rfl
  | thresholdRead d c => rfl
  | setHybrid b2 => simp [KVCPOp.isSetHybrid] at hop
  | hybridRead => rfl

/-- Witness for C9: the commutation conjunct applied at a concrete
state, flag value and operation. -/
theorem C9_hybrid_flag_witness :
    applyOp (KVCP_SetHybridEnabled initState true) KVCPOp.clear =
      KVCP_SetHybridEnabled (applyOp initState KVCPOp.clear) true :=
  C9_hybrid_flag.2.2.1 initState true KVCPOp.clear rfl

/-- Claim C10: per-key isolation.  Any `OnInsert` / miss-hook / `OnEvict`
call on key `k` leaves the entry of every other key `k2` — hence also
`ShouldSkipInsert`, `GetInvalidationCount` and `GetCachedKeyCount` at
`k2` — unchanged, and `SetThreshold` on `(d, c)` leaves `GetThreshold`
of every other `(d2, c2)` unchanged. -/
theorem C10_per_key_isolation :
    (∀ (s : KVCPState) (k k2 : KVCPKeyCtx), MakeKey k2 ≠ MakeKey k →
        (KVCP_OnRowCacheInsert s k).stats (MakeKey k2)
          = s.stats (MakeKey k2) ∧
        (KVCP_OnRowCacheInvalidation s k).stats (MakeKey k2)
          = s.stats (MakeKey k2) ∧
        (KVCP_OnRowCacheEvict s k).stats (MakeKey k2)
          = s.stats (MakeKey k2) ∧
        (∀ t : Nat,
          KVCP_ShouldSkipRowCacheInsert (KVCP_OnRowCacheInsert s k) k2 t
            = KVCP_ShouldSkipRowCacheInsert s k2 t) ∧
        (∀ t : Nat,
          KVCP_ShouldSkipRowCacheInsert (KVCP_OnRowCacheInvalidation s k)
            k2 t = KVCP_ShouldSkipRowCacheInsert s k2 t) ∧
        (∀ t : Nat,
          KVCP_ShouldSkipRowCacheInsert (KVCP_OnRowCacheEvict s k) k2 t
            = KVCP_ShouldSkipRowCacheInsert s k2 t) ∧
        KVCP_GetInvalidationCount (KVCP_OnRowCacheInsert s k) k2
          = KVCP_GetInvalidationCount s k2 ∧
        KVCP_GetInvalidationCount (KVCP_OnRowCacheInvalidation s k) k2
          = KVCP_GetInvalidationCount s k2 ∧
        KVCP_GetInvalidationCount (KVCP_OnRowCacheEvict s k) k2
          = KVCP_GetInvalidationCount s k2) ∧
    (∀ (s : KVCPState) (d c v d2 c2 : Nat),
        (⟨d2, c2⟩ : KVCP_TKey) ≠ ⟨d, c⟩ →
        KVCP_GetThreshold (KVCP_SetThreshold s d c v) d2 c2 =
          KVCP_GetThreshold s d2 c2) := by
  constructor
  · intro s k k2 hne
    rw [KVCP_OnRowCacheInsert_eq, KVCP_OnRowCacheInvalidation_eq,
      KVCP_OnRowCacheEvict_eq]
    have hIns := stats_OnInsert_ne s k (MakeKey k2) hne
    have hMiss := stats_OnMiss_ne s k (MakeKey k2) hne
    have hEv := stats_OnEvict_ne s k (MakeKey k2) hne
    have rIns := reads_congr (OnInsert s k) s k2 hIns
    have rMiss := reads_congr (OnMiss s k) s k2 hMiss
    have rEv := reads_congr (OnEvict s k) s k2 hEv
    exact ⟨hIns, hMiss, hEv, rIns.1, rMiss.1, rEv.1, rIns.2.1,
      rMiss.2.1, rEv.2.1⟩
  · intro s d c v d2 c2 hne
    show ThresholdGet (ThresholdSet s d c v) d2 c2 = ThresholdGet s d2 c2
    rw [ThresholdGet_eq, ThresholdGet_eq]
    show (mapUpd s.thresholds ⟨d, c⟩ v ⟨d2, c2⟩).getD kKVCPDefaultThreshold
      = (s.thresholds ⟨d2, c2⟩).getD kKVCPDefaultThreshold
    rw [mapUpd_ne _ _ _ _ hne]

/-- Witness for C10: isolation at two concrete distinct keys and two
concrete distinct threshold slots. -/
theorem C10_per_key_isolation_witness :
    (KVCP_OnRowCacheInsert initState keyA).stats (MakeKey keyB)
      = initState.stats (MakeKey keyB) ∧
    KVCP_GetThreshold (KVCP_SetThreshold initState 0 0 7) 1 0 =
      KVCP_GetThreshold initState 1 0 :=
  ⟨(C10_per_key_isolation.1 initState keyA keyB (by decide)).1,
    C10_per_key_isolation.2 initState 0 0 7 1 0 (by decide)⟩
